import Mathlib

/-!
Shallow embedding of the comment moderation engine of `backend/models/Comment.js`
(the Mongoose `Comment` schema): the spam scorer in the pre-save hook, the
moderation state transitions (`approve`/`reject`/`markAsSpam`), the reply and
like operations (`addReply`/`toggleLike`), and the read-side query
`findApprovedByPost`.

Documents are modelled as a structure with the schema's fields; object ids and
dates are modelled as naturals (only equality and ordering of `createdAt` are
used by the code); content is a list of characters.
-/

namespace Blog

abbrev UserId := Nat
abbrev PostId := Nat
abbrev CommentId := Nat
abbrev Time := Nat

/-- The `status` enum of the schema: `pending | approved | rejected | spam`. -/
inductive Status where
  | pending
  | approved
  | rejected
  | spam
deriving DecidableEq

/-- The `favoriteFlower` enum of the schema. -/
inductive Flower where
  | rose
  | daisy
  | lavender
  | sunflower
  | tulip
  | lily
  | orchid
  | jasmine
  | other
deriving DecidableEq

/-- The `mood` enum of the schema. -/
inductive Mood where
  | happy
  | inspired
  | peaceful
  | excited
  | grateful
  | curious
  | other
deriving DecidableEq

/-- The embedded `author` subdocument. -/
structure Author where
  name : String
  email : String
  website : String
  userId : Option UserId
deriving DecidableEq

/-- One element of the `likes` array: `{ user, createdAt }`. -/
structure LikeEntry where
  user : UserId
  createdAt : Time
deriving DecidableEq

/-- A `Comment` document, one field per schema path. -/
structure Comment where
  id : CommentId
  postId : PostId
  author : Author
  content : List Char
  status : Status
  parentComment : Option CommentId
  replies : List CommentId
  likes : List LikeEntry
  isEdited : Bool
  editedAt : Option Time
  moderatedBy : Option UserId
  moderatedAt : Option Time
  moderationReason : Option String
  ipAddress : String
  userAgent : String
  spamScore : Nat
  favoriteFlower : Flower
  mood : Mood
  createdAt : Time
deriving DecidableEq

/-! ### The spam scorer of the pre-save hook -/

/-- `(content.match(/https?:\/\//g) || []).length`: the number of
non-overlapping, left-to-right matches of `http://` or `https://`. -/
def countLinks : List Char → Nat
  | 'h' :: 't' :: 't' :: 'p' :: 's' :: ':' :: '/' :: '/' :: rest => countLinks rest + 1
  | 'h' :: 't' :: 't' :: 'p' :: ':' :: '/' :: '/' :: rest => countLinks rest + 1
  | _ :: rest => countLinks rest
  | [] => 0

/-- `(content.match(/[A-Z]/g) || []).length`: the number of ASCII uppercase
letters in the content. -/
def countUpper (s : List Char) : Nat :=
  (s.filter (fun c => decide ('A' ≤ c) && decide (c ≤ 'Z'))).length

/-- The caps-ratio test `capsRatio > 0.3` where
`capsRatio = countUpper s / s.length`, stated over the integers:
`countUpper s / s.length > 3 / 10  ↔  10 * countUpper s > 3 * s.length`.
(For the ratios of naturals the code can produce, IEEE double division and
comparison against the literal `0.3` agree with the exact rational
comparison, so this is faithful.) -/
def capsRatioHigh (s : List Char) : Bool :=
  decide (3 * s.length < 10 * countUpper s)

/-- Whether the JS regex `.` matches a character: any character except the
line terminators LF, CR, U+2028 and U+2029. -/
def jsDot (c : Char) : Bool :=
  c != '\n' && c != '\r' && c != '\u2028' && c != '\u2029'

/-- `/(.)\1{4,}/.test(content)`: the content has five consecutive equal
characters whose character is matched by `.` (so a run of line terminators
does not count). -/
def hasRepeatRun : List Char → Bool
  | a :: b :: c :: d :: e :: rest =>
    (jsDot a && a == b && a == c && a == d && a == e)
      || hasRepeatRun (b :: c :: d :: e :: rest)
  | _ => false

/-- `String.prototype.toLowerCase` restricted to the ASCII range (the denylist
words are ASCII, and no non-ASCII character lowercases to a plain ASCII
letter adjacent to others, so containment of the denylist words agrees). -/
def asciiToLower (c : Char) : Char :=
  if 'A' ≤ c ∧ c ≤ 'Z' then Char.ofNat (c.toNat + 32) else c

/-- `haystack.includes(needle)`: substring containment. -/
def listIncludes (needle : List Char) : List Char → Bool
  | [] => needle.isPrefixOf []
  | c :: rest => needle.isPrefixOf (c :: rest) || listIncludes needle rest

/-- The denylist `spamWords` of the hook, in source order. -/
def spamWords : List (List Char) :=
  [("viagra").data, ("casino").data, ("lottery").data,
   ("prize").data, ("winner").data, ("free money").data]

/-- The raw additive spam score of the pre-save hook, before clamping:
link rule, caps rule, repeated-character rule, then one `forEach` pass over
the denylist adding 25 per contained word. -/
def spamScoreRaw (s : List Char) : Nat :=
  let linkCount := countLinks s
  let acc := if 2 < linkCount then 0 + 30 else 0
  let acc := if 5 < linkCount then acc + 50 else acc
  let acc := if capsRatioHigh s then acc + 20 else acc
  let acc := if hasRepeatRun s then acc + 15 else acc
  let lower := s.map asciiToLower
  spamWords.foldl (fun a w => if listIncludes w lower then a + 25 else a) acc

/-- `this.spamScore = Math.min(spamScore, 100)`. -/
def spamScoreOf (s : List Char) : Nat :=
  min (spamScoreRaw s) 100

/-! ### The pre-save hook and the save-time context -/

/-- The Mongoose state the hook consults: `this.isNew` and
`this.isModified('content')`, plus the current time `new Date()`. -/
structure SaveCtx where
  isNew : Bool
  contentModified : Bool
  now : Time

/-- The `commentSchema.pre('save')` middleware: mark edits on non-new
documents whose content changed, and on new documents compute the clamped
spam score and auto-flag as spam at threshold 70. -/
def preSave (c : Comment) (ctx : SaveCtx) : Comment :=
  let c1 := if ctx.contentModified && !ctx.isNew then
      { c with isEdited := true, editedAt := some ctx.now }
    else c
  if ctx.isNew then
    let score := min (spamScoreRaw c1.content) 100
    let c2 := { c1 with spamScore := score }
    if 70 ≤ score then { c2 with status := Status.spam } else c2
  else c1

/-- Building and first saving a brand-new comment from a submission: all
schema defaults (`status := pending`, `spamScore := 0`, empty arrays, no
moderation data), then the pre-save hook with `isNew = true`. -/
def submitComment (id : CommentId) (pid : PostId) (a : Author) (content : List Char)
    (parent : Option CommentId) (ip ua : String) (fl : Flower) (mo : Mood)
    (now : Time) : Comment :=
  preSave
    { id := id, postId := pid, author := a, content := content,
      status := Status.pending, parentComment := parent, replies := [],
      likes := [], isEdited := false, editedAt := none, moderatedBy := none,
      moderatedAt := none, moderationReason := none, ipAddress := ip,
      userAgent := ua, spamScore := 0, favoriteFlower := fl, mood := mo,
      createdAt := now }
    { isNew := true, contentModified := true, now := now }

/-- Re-saving an existing comment after assigning `content = newContent`:
the pre-save hook runs with `isNew = false` and `isModified('content')`. -/
def editSave (c : Comment) (newContent : List Char) (now : Time) : Comment :=
  preSave { c with content := newContent }
    { isNew := false, contentModified := true, now := now }

/-! ### Moderation transitions and auxiliary operations

Each instance method mutates fields and then calls `this.save()`, which runs
the pre-save hook on a non-new document whose content was not modified. -/

/-- JS truthiness of the optional `reason` argument: `undefined` and the
empty string are falsy. -/
def jsTruthy : Option String → Bool
  | none => false
  | some s => !s.isEmpty

/-- `reason || fallback`. -/
def reasonOr (reason : Option String) (fallback : String) : String :=
  match reason with
  | some s => if s.isEmpty then fallback else s
  | none => fallback

/-- Instance method `approve(moderatorId, reason)`. -/
def approve (c : Comment) (moderatorId : UserId) (reason : Option String)
    (now : Time) : Comment :=
  let c1 := { c with status := Status.approved, moderatedBy := some moderatorId,
                     moderatedAt := some now }
  let c2 := if jsTruthy reason then { c1 with moderationReason := reason } else c1
  preSave c2 { isNew := false, contentModified := false, now := now }

/-- Instance method `reject(moderatorId, reason)`. -/
def reject (c : Comment) (moderatorId : UserId) (reason : Option String)
    (now : Time) : Comment :=
  let c1 := { c with status := Status.rejected, moderatedBy := some moderatorId,
                     moderatedAt := some now,
                     moderationReason :=
                       some (reasonOr reason ("Content violates community guidelines")) }
  preSave c1 { isNew := false, contentModified := false, now := now }

/-- Instance method `markAsSpam(moderatorId, reason)`. -/
def markAsSpam (c : Comment) (moderatorId : UserId) (reason : Option String)
    (now : Time) : Comment :=
  let c1 := { c with status := Status.spam, moderatedBy := some moderatorId,
                     moderatedAt := some now,
                     moderationReason := some (reasonOr reason ("Detected as spam")) }
  preSave c1 { isNew := false, contentModified := false, now := now }

/-- Instance method `addReply(replyId)`: push only if not already included. -/
def addReply (c : Comment) (replyId : CommentId) (now : Time) : Comment :=
  let c1 := if c.replies.contains replyId then c
    else { c with replies := c.replies ++ [replyId] }
  preSave c1 { isNew := false, contentModified := false, now := now }

/-- Instance method `toggleLike(userId)`: remove the user's like entries if
one exists, otherwise push `{ user: userId }` (whose `createdAt` defaults to
now). -/
def toggleLike (c : Comment) (userId : UserId) (now : Time) : Comment :=
  let c1 := match c.likes.find? (fun l => l.user == userId) with
    | some _ => { c with likes := c.likes.filter (fun l => l.user != userId) }
    | none => { c with likes := c.likes ++ [{ user := userId, createdAt := now }] }
  preSave c1 { isNew := false, contentModified := false, now := now }

/-! ### Read-side query `findApprovedByPost` -/

/-- Newest-first order on comments (`sort({ createdAt: -1 })`). -/
def newestFirst (a b : Comment) : Prop := b.createdAt ≤ a.createdAt

/-- Oldest-first order on comments (`sort({ createdAt: 1 })`). -/
def oldestFirst (a b : Comment) : Prop := a.createdAt ≤ b.createdAt

instance : DecidableRel newestFirst := fun a b => Nat.decLe _ _

instance : DecidableRel oldestFirst := fun a b => Nat.decLe _ _

instance : IsTotal Comment newestFirst :=
  ⟨fun a b => le_total b.createdAt a.createdAt⟩

instance : IsTrans Comment newestFirst :=
  ⟨fun _ _ _ h1 h2 => le_trans h2 h1⟩

instance : IsTotal Comment oldestFirst :=
  ⟨fun a b => le_total a.createdAt b.createdAt⟩

instance : IsTrans Comment oldestFirst :=
  ⟨fun _ _ _ h1 h2 => le_trans h1 h2⟩

/-- Looking a document up by id in the stored collection. -/
def findById (db : List Comment) (cid : CommentId) : Option Comment :=
  db.find? (fun d => d.id == cid)

/-- The result shape of `findApprovedByPost`: a top-level comment whose
`replies` path has been populated with reply documents. -/
structure PopulatedComment where
  comment : Comment
  populatedReplies : List Comment
deriving DecidableEq

/-- `populate({ path: 'replies', match: { status: 'approved' }, options: {
sort: { createdAt: 1 } } })`: resolve the reply ids, keep only the approved
reply documents, oldest first. -/
def approvedRepliesOf (db : List Comment) (c : Comment) : List Comment :=
  List.insertionSort oldestFirst
    ((c.replies.filterMap (findById db)).filter
      (fun d => d.status == Status.approved))

/-- Static `findApprovedByPost(postId)`: the approved top-level comments of
the post, newest first, each with its approved replies populated. -/
def findApprovedByPost (db : List Comment) (pid : PostId) : List PopulatedComment :=
  (List.insertionSort newestFirst
      (db.filter (fun c =>
        c.postId == pid && c.status == Status.approved
          && c.parentComment == none))).map
    (fun c => { comment := c, populatedReplies := approvedRepliesOf db c })

/-! ### Derived views of the scorer, used to state the rule-level claims -/

/-- The contribution of the link rule: 30 for more than 2 links, plus 50 for
more than 5 links. -/
def linkScore (s : List Char) : Nat :=
  (if 2 < countLinks s then 30 else 0) + (if 5 < countLinks s then 50 else 0)

/-- The contribution of the caps-ratio rule. -/
def capsScore (s : List Char) : Nat :=
  if capsRatioHigh s then 20 else 0

/-- The contribution of the repeated-character rule. -/
def repeatScore (s : List Char) : Nat :=
  if hasRepeatRun s then 15 else 0

/-- The contribution of the denylist rule: 25 per contained word. -/
def wordScore (s : List Char) : Nat :=
  25 * (spamWords.filter (fun w => listIncludes w (s.map asciiToLower))).length

/-- The spec's wording of the repeated-character test: five or more
consecutive occurrences of the same character, with no carve-out for line
terminators.  Kept separate from `hasRepeatRun` (the translation of the
source regex) so the two can be compared. -/
def specHasRunOfFive : List Char → Bool
  | a :: b :: c :: d :: e :: rest =>
    (a == b && a == c && a == d && a == e)
      || specHasRunOfFive (b :: c :: d :: e :: rest)
  | _ => false

/-- Whether the first character `x` starts a five-character run matched by
`(.)\1{4,}`: the next four characters equal `x` and `x` is matched by `.`. -/
def headRunFive (x : Char) : List Char → Bool
  | b :: c :: d :: e :: _ => jsDot x && x == b && x == c && x == d && x == e
  | _ => false

/-- Whether user `v` currently has a like entry on the comment. -/
def likedBy (c : Comment) (v : UserId) : Bool :=
  c.likes.any (fun l => l.user == v)

/-- All fields of a comment other than `status`, `moderatedBy`,
`moderatedAt` and `moderationReason` agree between `c` and `c'`. -/
def moderationFrame (c c' : Comment) : Prop :=
  c'.id = c.id ∧ c'.postId = c.postId ∧ c'.author = c.author ∧
  c'.content = c.content ∧ c'.parentComment = c.parentComment ∧
  c'.replies = c.replies ∧ c'.likes = c.likes ∧ c'.isEdited = c.isEdited ∧
  c'.editedAt = c.editedAt ∧ c'.ipAddress = c.ipAddress ∧
  c'.userAgent = c.userAgent ∧ c'.spamScore = c.spamScore ∧
  c'.favoriteFlower = c.favoriteFlower ∧ c'.mood = c.mood ∧
  c'.createdAt = c.createdAt

/-! ### Concrete fixtures -/

/-- An anonymous submitter. -/
def anon : Author :=
  { name := ("Guest"), email := ("guest@example.com"), website := (""),
    userId := none }

/-- A plain stored comment used as the base of the concrete fixtures. -/
def baseComment : Comment :=
  { id := 0, postId := 0, author := anon, content := ("hello there").data,
    status := Status.pending, parentComment := none, replies := [], likes := [],
    isEdited := false, editedAt := none, moderatedBy := none,
    moderatedAt := none, moderationReason := none, ipAddress := ("127.0.0.1"),
    userAgent := ("test"), spamScore := 0, favoriteFlower := Flower.other,
    mood := Mood.other, createdAt := 0 }

/-- A comment already liked by user 1 at time 0. -/
def cLiked : Comment :=
  { baseComment with likes := [{ user := 1, createdAt := 0 }] }

/-- Content whose raw additive total exceeds 100 (6 links, all five single
denylist words plus a phrase, high caps ratio, and a repeated run). -/
def exOverflow : List Char :=
  ("http://x http://x http://x http://x http://x http://x WINNER PRIZE CASINO LOTTERY VIAGRA aaaaa FREE MONEY").data

/-- Six link occurrences and otherwise plain text. -/
def exSix : List Char :=
  ("go http://a http://b http://c http://d http://e http://f").data

/-- The all-caps denylist scenario content of the spec. -/
def exCaps : List Char :=
  ("WIN A FREE PRIZE NOW CASINO WINNER").data

/-- Content scoring exactly 70: three links (30), a repeated run (15) and one
denylist word (25). -/
def exSeventy : List Char :=
  ("http://a http://b http://c aaaaa prize").data

/-- Content scoring 30: three links and nothing else. -/
def exThirty : List Char :=
  ("Check this out https://a.com https://b.com https://c.com").data

/-- A run of five consecutive characters and trailing plain text. -/
def exRun : List Char :=
  ("aaaaab").data

/-- Valid content (length 7, no leading or trailing whitespace) containing a
run of five newline characters. -/
def exNewlines : List Char :=
  ['a', '\n', '\n', '\n', '\n', '\n', 'b']

/-- Fixture: an approved top-level comment on post 1 with three reply ids. -/
def cTop1 : Comment :=
  { baseComment with id := 1, postId := 1, status := Status.approved,
                     replies := [3, 4], createdAt := 10 }

/-- Fixture: a newer approved top-level comment on post 1. -/
def cTop2 : Comment :=
  { baseComment with id := 2, postId := 1, status := Status.approved,
                     createdAt := 20 }

/-- Fixture: an approved reply to comment 1. -/
def cReply3 : Comment :=
  { baseComment with id := 3, postId := 1, status := Status.approved,
                     parentComment := some 1, createdAt := 5 }

/-- Fixture: a pending reply to comment 1 (must not surface). -/
def cReply4 : Comment :=
  { baseComment with id := 4, postId := 1, status := Status.pending,
                     parentComment := some 1, createdAt := 6 }

/-- Fixture: a pending top-level comment on post 1 (must not surface). -/
def cPending5 : Comment :=
  { baseComment with id := 5, postId := 1, status := Status.pending,
                     createdAt := 30 }

/-- Fixture collection for the read-side query. -/
def dbEx : List Comment :=
  [cTop1, cTop2, cReply3, cReply4, cPending5]

/-! ### Shared lemmas -/

/-- Folding `+ k per element satisfying p` counts the matching elements. -/
theorem foldl_add_count {α : Type} (p : α → Bool) (k : Nat) (ws : List α) :
    ∀ a : Nat, ws.foldl (fun acc w => if p w then acc + k else acc) a
        = a + k * (ws.filter p).length := by
  induction ws with
  | nil => intro a; simp
  | cons w ws ih =>
    intro a
    by_cases h : p w = true <;>
      simp only [List.foldl_cons, List.filter_cons, h, if_true, if_false,
        Bool.false_eq_true, ite_false, ite_true] <;>
      rw [ih] <;> simp [Nat.mul_succ] <;> omega

/-- The sequential accumulation of the hook equals the sum of the four
rule contributions. -/
theorem spamScoreRaw_eq (s : List Char) :
    spamScoreRaw s = linkScore s + capsScore s + repeatScore s + wordScore s := by
  simp only [spamScoreRaw, linkScore, capsScore, repeatScore, wordScore]
  rw [foldl_add_count]
  split_ifs <;> omega

/-- The hook on a non-new save with unmodified content changes nothing. -/
theorem preSave_old (c : Comment) (now : Time) :
    preSave c { isNew := false, contentModified := false, now := now } = c := rfl

/-- The spam score stored by a first save. -/
theorem submitComment_spamScore (id : CommentId) (pid : PostId) (a : Author)
    (content : List Char) (parent : Option CommentId) (ip ua : String)
    (fl : Flower) (mo : Mood) (now : Time) :
    (submitComment id pid a content parent ip ua fl mo now).spamScore
      = min (spamScoreRaw content) 100 := by
  by_cases h : 70 ≤ min (spamScoreRaw content) 100 <;>
    simp [submitComment, preSave, h]

/-- The status stored by a first save. -/
theorem submitComment_status (id : CommentId) (pid : PostId) (a : Author)
    (content : List Char) (parent : Option CommentId) (ip ua : String)
    (fl : Flower) (mo : Mood) (now : Time) :
    (submitComment id pid a content parent ip ua fl mo now).status
      = if 70 ≤ min (spamScoreRaw content) 100 then Status.spam
        else Status.pending := by
  by_cases h : 70 ≤ min (spamScoreRaw content) 100 <;>
    simp [submitComment, preSave, h]

/-- Normal form of `approve`. -/
theorem approve_eq (c : Comment) (m : UserId) (r : Option String) (now : Time) :
    approve c m r now
      = { c with status := Status.approved, moderatedBy := some m,
                 moderatedAt := some now,
                 moderationReason :=
                   if jsTruthy r then r else c.moderationReason } := by
  unfold approve preSave
  by_cases h : jsTruthy r = true <;> simp [h]

/-- Normal form of `reject`. -/
theorem reject_eq (c : Comment) (m : UserId) (r : Option String) (now : Time) :
    reject c m r now
      = { c with status := Status.rejected, moderatedBy := some m,
                 moderatedAt := some now,
                 moderationReason :=
                   some (reasonOr r ("Content violates community guidelines")) } := rfl

/-- Normal form of `markAsSpam`. -/
theorem markAsSpam_eq (c : Comment) (m : UserId) (r : Option String) (now : Time) :
    markAsSpam c m r now
      = { c with status := Status.spam, moderatedBy := some m,
                 moderatedAt := some now,
                 moderationReason := some (reasonOr r ("Detected as spam")) } := rfl

/-- Normal form of `addReply`. -/
theorem addReply_eq (c : Comment) (rid : CommentId) (now : Time) :
    addReply c rid now
      = if c.replies.contains rid then c
        else { c with replies := c.replies ++ [rid] } := rfl

/-- Normal form of `toggleLike`. -/
theorem toggleLike_eq (c : Comment) (u : UserId) (now : Time) :
    toggleLike c u now
      = match c.likes.find? (fun l => l.user == u) with
        | some _ => { c with likes := c.likes.filter (fun l => l.user != u) }
        | none => { c with likes := c.likes ++ [{ user := u, createdAt := now }] } := rfl

/-! ### C1: the score is clamped to [0, 100] -/

/-- C1: for every content string, the spam score stored at creation is the
clamped score, a natural number at most 100 (hence in [0, 100]); and on a
content whose raw additive total exceeds 100 the stored score is exactly
100. -/
theorem spamScore_clamped :
    (∀ (id : CommentId) (pid : PostId) (a : Author) (content : List Char)
        (parent : Option CommentId) (ip ua : String) (fl : Flower) (mo : Mood)
        (now : Time),
      (submitComment id pid a content parent ip ua fl mo now).spamScore
          = spamScoreOf content ∧
        (submitComment id pid a content parent ip ua fl mo now).spamScore ≤ 100) ∧
    (100 < spamScoreRaw exOverflow ∧ spamScoreOf exOverflow = 100) := by
  refine ⟨fun id pid a content parent ip ua fl mo now => ?_, by decide, by decide⟩
  rw [submitComment_spamScore]
  exact ⟨rfl, Nat.min_le_right _ _⟩

/-! ### C2: the auto-spam threshold is 70 -/

/-- C2: a newly created comment whose clamped score is at least 70 starts in
status `spam`, and one whose score is below 70 starts in status `pending`. -/
theorem initialStatus_threshold (id : CommentId) (pid : PostId) (a : Author)
    (content : List Char) (parent : Option CommentId) (ip ua : String)
    (fl : Flower) (mo : Mood) (now : Time) :
    (70 ≤ (submitComment id pid a content parent ip ua fl mo now).spamScore →
      (submitComment id pid a content parent ip ua fl mo now).status
        = Status.spam) ∧
    ((submitComment id pid a content parent ip ua fl mo now).spamScore < 70 →
      (submitComment id pid a content parent ip ua fl mo now).status
        = Status.pending) := by
  rw [submitComment_spamScore, submitComment_status]
  constructor
  · intro h
    rw [if_pos h]
  · intro h
    rw [if_neg (by omega)]

/-- C2 witness: a content scoring exactly 70 is created as `spam`, and one
scoring 30 is created as `pending`. -/
theorem initialStatus_threshold_witness :
    (submitComment 0 0 anon exSeventy none ("") ("") Flower.other Mood.other
        0).status = Status.spam ∧
    (submitComment 0 0 anon exThirty none ("") ("") Flower.other Mood.other
        0).status = Status.pending :=
  ⟨(initialStatus_threshold 0 0 anon exSeventy none ("") ("") Flower.other
      Mood.other 0).1 (by decide),
   (initialStatus_threshold 0 0 anon exThirty none ("") ("") Flower.other
      Mood.other 0).2 (by decide)⟩

/-! ### C3: the moderation transitions -/

/-- C3: from any prior state, `approve`, `reject` and `markAsSpam` set the
respective status and always overwrite the moderator id and timestamp;
`reject` and `markAsSpam` default the reason to their fixed messages when
none is supplied, `approve` leaves the reason unchanged when none is
supplied; and no field other than the four moderation fields changes. -/
theorem moderation_transitions (c : Comment) (m : UserId) (r : Option String)
    (now : Time) :
    ((approve c m r now).status = Status.approved ∧
      (approve c m r now).moderatedBy = some m ∧
      (approve c m r now).moderatedAt = some now ∧
      moderationFrame c (approve c m r now)) ∧
    ((reject c m r now).status = Status.rejected ∧
      (reject c m r now).moderatedBy = some m ∧
      (reject c m r now).moderatedAt = some now ∧
      moderationFrame c (reject c m r now)) ∧
    ((markAsSpam c m r now).status = Status.spam ∧
      (markAsSpam c m r now).moderatedBy = some m ∧
      (markAsSpam c m r now).moderatedAt = some now ∧
      moderationFrame c (markAsSpam c m r now)) ∧
    (reject c m none now).moderationReason
        = some ("Content violates community guidelines") ∧
    (markAsSpam c m none now).moderationReason = some ("Detected as spam") ∧
    (approve c m none now).moderationReason = c.moderationReason := by
  rw [approve_eq, reject_eq, markAsSpam_eq]
  refine ⟨⟨rfl, rfl, rfl, ?_⟩, ⟨rfl, rfl, rfl, ?_⟩, ⟨rfl, rfl, rfl, ?_⟩,
    rfl, rfl, rfl⟩ <;>
    exact ⟨rfl, rfl, rfl, rfl, rfl, rfl, rfl, rfl, rfl, rfl, rfl, rfl, rfl,
      rfl, rfl⟩

/-! ### C5: addReply is idempotent -/

/-- C5: on a comment whose reply list holds a given id at most once (the
invariant `addReply`, the only writer of `replies`, maintains), one call
makes the id appear exactly once, a second call with the same id changes
nothing, and the id still appears exactly once. -/
theorem addReply_idempotent (c : Comment) (rid : CommentId) (t1 t2 : Time)
    (h : c.replies.count rid ≤ 1) :
    (addReply c rid t1).replies.count rid = 1 ∧
    addReply (addReply c rid t1) rid t2 = addReply c rid t1 ∧
    (addReply (addReply c rid t1) rid t2).replies.count rid = 1 := by
  rw [addReply_eq]
  by_cases hc : c.replies.contains rid = true
  · have hmem : rid ∈ c.replies := by
      simpa using hc
    have h1 : c.replies.count rid = 1 :=
      le_antisymm h (List.count_pos_iff.mpr hmem)
    rw [if_pos hc]
    refine ⟨h1, ?_, ?_⟩
    · rw [addReply_eq, if_pos hc]
    · rw [addReply_eq, if_pos hc]; exact h1
  · have hmem : rid ∉ c.replies := by
      simpa using hc
    have h0 : c.replies.count rid = 0 := List.count_eq_zero.mpr hmem
    rw [if_neg hc]
    have hcount : (c.replies ++ [rid]).count rid = 1 := by
      simp [List.count_append, h0]
    have hc2 : ({ c with replies := c.replies ++ [rid] } :
        Comment).replies.contains rid = true := by
      simp
    refine ⟨hcount, ?_, ?_⟩
    · rw [addReply_eq, if_pos hc2]
    · rw [addReply_eq, if_pos hc2]; exact hcount

/-- C5 witness: adding reply 7 twice to a comment with no replies leaves it
listed exactly once, and the second call is a no-op. -/
theorem addReply_idempotent_witness :
    (addReply baseComment 7 1).replies.count 7 = 1 ∧
    addReply (addReply baseComment 7 1) 7 2 = addReply baseComment 7 1 ∧
    (addReply (addReply baseComment 7 1) 7 2).replies.count 7 = 1 :=
  addReply_idempotent baseComment 7 1 2 (by decide)

/-! ### C6: edits never rescore -/

/-- C6: saving an existing comment with modified content stores the new
content, leaves `spamScore` and `status` (and the other fields) unchanged,
and sets `isEdited` and `editedAt`. -/
theorem editSave_frame (c : Comment) (nc : List Char) (now : Time) :
    (editSave c nc now).spamScore = c.spamScore ∧
    (editSave c nc now).status = c.status ∧
    (editSave c nc now).isEdited = true ∧
    (editSave c nc now).editedAt = some now ∧
    (editSave c nc now).content = nc ∧
    (editSave c nc now).likes = c.likes ∧
    (editSave c nc now).replies = c.replies ∧
    (editSave c nc now).moderatedBy = c.moderatedBy ∧
    (editSave c nc now).moderatedAt = c.moderatedAt ∧
    (editSave c nc now).moderationReason = c.moderationReason :=
  ⟨rfl, rfl, rfl, rfl, rfl, rfl, rfl, rfl, rfl, rfl⟩

/-! ### C7: the two link thresholds stack -/

/-- C7: whenever the content has more than 5 link occurrences the link rule
contributes 30 + 50 = 80 to the raw score; and the six-link plain-text
scenario scores 80 and is created as `spam`. -/
theorem linkRule_stacks :
    (∀ s : List Char, 5 < countLinks s →
      spamScoreRaw s = 80 + (capsScore s + repeatScore s + wordScore s)) ∧
    (spamScoreOf exSix = 80 ∧
      (submitComment 0 0 anon exSix none ("") ("") Flower.other Mood.other
          0).status = Status.spam) := by
  refine ⟨fun s h5 => ?_, by decide, ?_⟩
  · rw [spamScoreRaw_eq]
    have h2 : 2 < countLinks s := by omega
    simp only [linkScore, if_pos h2, if_pos h5]
    omega
  · rw [submitComment_status]
    decide

/-- C7 witness: the six-link scenario content has more than 5 links, so the
link rule contributes exactly 80 to its raw score. -/
theorem linkRule_stacks_witness :
    spamScoreRaw exSix = 80 + (capsScore exSix + repeatScore exSix + wordScore exSix) :=
  linkRule_stacks.1 exSix (by decide)

/-! ### C8: the all-caps denylist scenario -/

/-- C8: on `"WIN A FREE PRIZE NOW CASINO WINNER"` the caps rule contributes
20, exactly the three denylist words `casino`, `prize`, `winner` match for
25 each (75 total), the score is 95, and the comment is created as `spam`. -/
theorem capsDenylist_scenario :
    capsScore exCaps = 20 ∧
    (spamWords.filter (fun w => listIncludes w (exCaps.map asciiToLower)))
        = [("casino").data, ("prize").data, ("winner").data] ∧
    wordScore exCaps = 75 ∧
    spamScoreOf exCaps = 95 ∧
    (submitComment 0 0 anon exCaps none ("") ("") Flower.other Mood.other
        0).status = Status.spam := by
  refine ⟨by decide, by decide, by decide, by decide, ?_⟩
  rw [submitComment_status]
  decide

/-! ### C4: toggleLike round trip -/

/-- C4 counterexample: on a comment liked by user 1 at time 0, toggling twice
at time 5 does not return the like entries to their prior state (the re-added
entry carries timestamp 5), so the comment itself is not restored either. -/
theorem toggleLike_roundTrip_counterexample :
    (toggleLike (toggleLike cLiked 1 5) 1 5).likes ≠ cLiked.likes ∧
    toggleLike (toggleLike cLiked 1 5) 1 5 ≠ cLiked := by
  decide

/-- C4 amended: toggling the same user twice restores the set of users that
have liked the comment, and when the user had no existing like entry the
whole comment (entries, timestamps and order included) is restored exactly;
when the user had an existing like, the re-added entry carries the second
toggle's timestamp. -/
theorem toggleLike_roundTrip (c : Comment) (u : UserId) (t1 t2 : Time) :
    (∀ v, likedBy (toggleLike (toggleLike c u t1) u t2) v = likedBy c v) ∧
    ((∀ l ∈ c.likes, l.user ≠ u) → toggleLike (toggleLike c u t1) u t2 = c) := by
  cases h : c.likes.find? (fun l => l.user == u) with
  | none =>
    have hall : ∀ l ∈ c.likes, ¬((l.user == u) = true) := by
      intro l hl
      exact List.find?_eq_none.mp h l hl
    have hstep1 : toggleLike c u t1
        = { c with likes := c.likes ++ [{ user := u, createdAt := t1 }] } := by
      rw [toggleLike_eq, h]
    have hfind2 : (c.likes ++ [({ user := u, createdAt := t1 } : LikeEntry)]).find?
        (fun l => l.user == u) = some { user := u, createdAt := t1 } := by
      rw [List.find?_append, h]
      simp
    have hfilter : (c.likes ++ [({ user := u, createdAt := t1 } : LikeEntry)]).filter
        (fun l => l.user != u) = c.likes := by
      rw [List.filter_append]
      have h1 : c.likes.filter (fun l => l.user != u) = c.likes :=
        List.filter_eq_self.mpr (fun l hl => by
          simpa [bne_iff_ne] using hall l hl)
      have h2 : [({ user := u, createdAt := t1 } : LikeEntry)].filter
          (fun l => l.user != u) = [] := by simp
      rw [h1, h2, List.append_nil]
    have hback : toggleLike (toggleLike c u t1) u t2 = c := by
      rw [hstep1, toggleLike_eq]
      simp only [hfind2, hfilter]
    exact ⟨fun v => by rw [hback], fun _ => hback⟩
  | some l0 =>
    have hl0 : l0 ∈ c.likes := List.mem_of_find?_eq_some h
    have hl0u : l0.user = u := by
      have := List.find?_some h
      simpa using this
    have hstep1 : toggleLike c u t1
        = { c with likes := c.likes.filter (fun l => l.user != u) } := by
      rw [toggleLike_eq, h]
    have hfind2 : (c.likes.filter (fun l => l.user != u)).find?
        (fun l => l.user == u) = none := by
      apply List.find?_eq_none.mpr
      intro x hx
      have hxu : (x.user != u) = true := (List.mem_filter.mp hx).2
      simp only [bne_iff_ne] at hxu
      simp [hxu]
    have hback : toggleLike (toggleLike c u t1) u t2
        = { c with likes := c.likes.filter (fun l => l.user != u)
                             ++ [{ user := u, createdAt := t2 }] } := by
      rw [hstep1, toggleLike_eq]
      simp only [hfind2]
    constructor
    · intro v
      rw [hback]
      show (c.likes.filter (fun l => l.user != u)
          ++ [({ user := u, createdAt := t2 } : LikeEntry)]).any
            (fun l => l.user == v) = c.likes.any (fun l => l.user == v)
      rcases eq_or_ne u v with rfl | hv
      · have hrhs : c.likes.any (fun l => l.user == u) = true :=
          List.any_eq_true.mpr ⟨l0, hl0, by simp [hl0u]⟩
        rw [hrhs, List.any_append]
        simp
      · rw [List.any_append]
        have hsing : [({ user := u, createdAt := t2 } : LikeEntry)].any
            (fun l => l.user == v) = false := by
          simp [hv]
        rw [hsing, Bool.or_false]
        apply Bool.eq_iff_iff.mpr
        simp only [List.any_eq_true, List.mem_filter]
        constructor
        · rintro ⟨x, ⟨hx, -⟩, hxv⟩
          exact ⟨x, hx, hxv⟩
        · rintro ⟨x, hx, hxv⟩
          refine ⟨x, ⟨hx, ?_⟩, hxv⟩
          have : x.user = v := by simpa using hxv
          simp [bne_iff_ne, this, hv.symm]
    · intro hno
      exact absurd hl0u (hno l0 hl0)

/-- C4 witness: toggling user 1 twice on a comment with no likes restores the
comment exactly. -/
theorem toggleLike_roundTrip_witness :
    toggleLike (toggleLike baseComment 1 2) 1 3 = baseComment :=
  (toggleLike_roundTrip baseComment 1 2 3).2 (by decide)

/-! ### C9: the repeated-character rule -/

/-- Unfolding `hasRepeatRun` one character at a time. -/
theorem hasRepeatRun_cons (x : Char) (t : List Char) :
    hasRepeatRun (x :: t) = (headRunFive x t || hasRepeatRun t) := by
  rcases t with _ | ⟨b, _ | ⟨c, _ | ⟨d, _ | ⟨e, rest⟩⟩⟩⟩ <;> rfl

/-- A successful head window yields the run explicitly. -/
theorem headRunFive_decomp (x : Char) :
    (t : List Char) → headRunFive x t = true →
      jsDot x = true ∧ ∃ rest, t = x :: x :: x :: x :: rest
  | b :: c :: d :: e :: rest, h => by
    simp only [headRunFive, Bool.and_eq_true, beq_iff_eq] at h
    obtain ⟨⟨⟨⟨hx, hb⟩, hc⟩, hd⟩, he⟩ := h
    subst hb
    subst hc
    subst hd
    subst he
    exact ⟨hx, rest, rfl⟩
  | [], h => by simp [headRunFive] at h
  | [_], h => by simp [headRunFive] at h
  | [_, _], h => by simp [headRunFive] at h
  | [_, _, _], h => by simp [headRunFive] at h

/-- A five-character run of a `.`-matched character makes the scanner
succeed, wherever it sits. -/
theorem hasRepeatRun_of_decomp (pre : List Char) (c0 : Char) (post : List Char)
    (hc0 : jsDot c0 = true) :
    hasRepeatRun (pre ++ (c0 :: c0 :: c0 :: c0 :: c0 :: post)) = true := by
  induction pre with
  | nil =>
    rw [List.nil_append, hasRepeatRun_cons]
    have hw : headRunFive c0 (c0 :: c0 :: c0 :: c0 :: post) = true := by
      simp [headRunFive, hc0]
    rw [hw, Bool.true_or]
  | cons y pre' ih =>
    rw [List.cons_append, hasRepeatRun_cons, ih, Bool.or_true]

/-- The scanner of the source regex `(.)\1{4,}` succeeds exactly on contents
containing five consecutive copies of a character matched by `.`. -/
theorem hasRepeatRun_iff (s : List Char) :
    hasRepeatRun s = true
      ↔ ∃ pre c post, s = pre ++ List.replicate 5 c ++ post ∧ jsDot c = true := by
  constructor
  · induction s with
    | nil =>
      intro h
      exact absurd h (by decide)
    | cons x t ih =>
      intro h
      rw [hasRepeatRun_cons] at h
      rcases Bool.or_eq_true _ _ ▸ h with hw | ht
      · obtain ⟨hx, rest, hrest⟩ := headRunFive_decomp x t hw
        refine ⟨[], x, rest, ?_, hx⟩
        rw [hrest]
        rfl
      · obtain ⟨pre, c0, post, hs, hc0⟩ := ih ht
        exact ⟨x :: pre, c0, post, by rw [hs]; rfl, hc0⟩
  · rintro ⟨pre, c0, post, hs, hc0⟩
    have hrep : (List.replicate 5 c0 : List Char) ++ post
        = c0 :: c0 :: c0 :: c0 :: c0 :: post := rfl
    rw [hs, List.append_assoc, hrep]
    exact hasRepeatRun_of_decomp pre c0 post hc0

/-- C9 counterexample: `"a\n\n\n\n\nb"` (valid content, length 7) contains a
run of five identical characters, yet the repeated-character rule contributes
0 because the source regex `(.)\1{4,}` cannot match a line terminator with
`.`; the whole score is 0, not 15. -/
theorem repeatRule_newline_counterexample :
    exNewlines = ['a'] ++ List.replicate 5 '\n' ++ ['b'] ∧
    specHasRunOfFive exNewlines = true ∧
    repeatScore exNewlines = 0 ∧
    spamScoreOf exNewlines = 0 := by
  decide

/-- C9 amended: the repeated-character rule contributes 15 to the raw score
exactly when the content contains five or more consecutive copies of a
character that is not a line terminator, and 0 otherwise (in particular a
run of newlines contributes 0). -/
theorem repeatRule_characterisation (s : List Char) :
    ((∃ pre c post, s = pre ++ List.replicate 5 c ++ post ∧ jsDot c = true) →
      spamScoreRaw s = linkScore s + capsScore s + 15 + wordScore s) ∧
    ((¬ ∃ pre c post, s = pre ++ List.replicate 5 c ++ post ∧ jsDot c = true) →
      spamScoreRaw s = linkScore s + capsScore s + wordScore s) := by
  constructor
  · intro hex
    rw [spamScoreRaw_eq]
    have h15 : repeatScore s = 15 := by
      unfold repeatScore
      rw [if_pos ((hasRepeatRun_iff s).mpr hex)]
    omega
  · intro hnex
    rw [spamScoreRaw_eq]
    have hfalse : hasRepeatRun s = false := by
      cases hh : hasRepeatRun s
      · rfl
      · exact absurd ((hasRepeatRun_iff s).mp hh) hnex
    have h0 : repeatScore s = 0 := by
      unfold repeatScore
      rw [hfalse]
      rfl
    omega

/-- C9 witness: `"aaaaab"` decomposes around a run of five `a`s, so the rule
contributes 15 to its raw score. -/
theorem repeatRule_characterisation_witness :
    spamScoreRaw exRun
      = linkScore exRun + capsScore exRun + 15 + wordScore exRun :=
  (repeatRule_characterisation exRun).1
    ⟨[], 'a', ("b").data, by decide, by decide⟩

/-! ### C10: the approved-comments query -/

/-- C10: the query returns exactly the stored comments of the post that are
approved and top-level (sound and complete), newest first; and each result
carries exactly the approved documents among its resolved reply ids, oldest
first. -/
theorem findApprovedByPost_spec (db : List Comment) (pid : PostId) :
    (∀ x ∈ findApprovedByPost db pid,
        x.comment ∈ db ∧ x.comment.postId = pid ∧
        x.comment.status = Status.approved ∧ x.comment.parentComment = none) ∧
    (∀ c ∈ db, c.postId = pid → c.status = Status.approved →
        c.parentComment = none →
        ∃ x ∈ findApprovedByPost db pid, x.comment = c) ∧
    List.Sorted newestFirst
      ((findApprovedByPost db pid).map PopulatedComment.comment) ∧
    (∀ x ∈ findApprovedByPost db pid,
        List.Sorted oldestFirst x.populatedReplies ∧
        ∀ r, r ∈ x.populatedReplies ↔
          (r ∈ x.comment.replies.filterMap (findById db) ∧
            r.status = Status.approved)) := by
  have hmem : ∀ c, c ∈ List.insertionSort newestFirst
      (db.filter (fun c => c.postId == pid && c.status == Status.approved
        && c.parentComment == none))
      ↔ c ∈ db.filter (fun c => c.postId == pid && c.status == Status.approved
        && c.parentComment == none) :=
    fun c => (List.perm_insertionSort _ _).mem_iff
  refine ⟨?_, ?_, ?_, ?_⟩
  · intro x hx
    obtain ⟨c, hc, rfl⟩ := List.mem_map.mp hx
    obtain ⟨hdb, hp⟩ := List.mem_filter.mp ((hmem c).mp hc)
    simp only [Bool.and_eq_true, beq_iff_eq] at hp
    exact ⟨hdb, hp.1.1, hp.1.2, hp.2⟩
  · intro c hdb h1 h2 h3
    have hp : c ∈ db.filter (fun c => c.postId == pid
        && c.status == Status.approved && c.parentComment == none) :=
      List.mem_filter.mpr ⟨hdb, by simp [h1, h2, h3]⟩
    exact ⟨_, List.mem_map_of_mem _ ((hmem c).mpr hp), rfl⟩
  · have hid : (PopulatedComment.comment ∘ fun c =>
        ({ comment := c, populatedReplies := approvedRepliesOf db c } :
          PopulatedComment)) = id := rfl
    show List.Sorted newestFirst _
    rw [findApprovedByPost, List.map_map, hid, List.map_id]
    exact List.sorted_insertionSort _ _
  · intro x hx
    obtain ⟨c, hc, rfl⟩ := List.mem_map.mp hx
    refine ⟨List.sorted_insertionSort _ _, fun r => ?_⟩
    show r ∈ approvedRepliesOf db c ↔ _
    rw [approvedRepliesOf, (List.perm_insertionSort _ _).mem_iff,
      List.mem_filter]
    simp only [beq_iff_eq]

/-- C10 witness: on the five-comment fixture collection, the stored approved
top-level comment `cTop1` surfaces in the query result for post 1. -/
theorem findApprovedByPost_spec_witness :
    ∃ x ∈ findApprovedByPost dbEx 1, x.comment = cTop1 :=
  (findApprovedByPost_spec dbEx 1).2.1 cTop1 (by decide) rfl rfl rfl

end Blog
